import Mathlib

/-!
Verification of the job-orchestration backend (`main.py`, `main_colmap.py`,
`main_gaussian_splatting.py`, `config.py`) of the 3D-by-video repository.

The Python sources are embedded shallowly: pure loops become structurally
recursive Lean functions, the asynchronous pipeline body of
`process_3d_generation` becomes an explicit list of mutation/suspension
events over the in-memory job record, and the HTTP handlers that touch the
registry become functions over an explicit server state.
-/

namespace Spec2Proof

/-! ## Frame sampler of `main.py` (`extract_frames_from_video`)

The OpenCV capture is abstracted by its two observable quantities: the
native frame count `totalFrames` (successful `cap.read()` calls before the
stream is exhausted) and the kept-frame indices.  The Python loop keeps a
frame when `frame_count % interval == 0`, increments `extracted_count`, and
breaks once `extracted_count >= target_frames` or the stream ends.
`sampleGo rem fc ec` returns the list of kept frame indices when `rem`
frames are still readable, the next frame has index `fc`, and `ec` frames
have been kept so far. -/

def sampleGo (interval target : Nat) : Nat → Nat → Nat → List Nat
  | 0, _, _ => []
  | rem + 1, fc, ec =>
    if fc % interval = 0 then
      fc :: (if target ≤ ec + 1 then [] else sampleGo interval target rem (fc + 1) (ec + 1))
    else
      sampleGo interval target rem (fc + 1) ec

/-- `extract_frames_from_video` of `main.py` (lines 53-99), returning the kept
frame indices.  `interval = max(1, total_frames // target_frames)`.  When
`target_frames = 0` the Python expression `total_frames // target_frames`
raises `ZeroDivisionError`, modelled by `none`. -/
def extract_frames_from_video (totalFrames targetFrames : Nat) : Option (List Nat) :=
  if targetFrames = 0 then none
  else some (sampleGo (max 1 (totalFrames / targetFrames)) targetFrames totalFrames 0 0)

/-- Frames kept in a run that does not raise (used by the pipeline model,
which always calls with `target_frames = 50`). -/
def sampledFrames (totalFrames targetFrames : Nat) : List Nat :=
  sampleGo (max 1 (totalFrames / targetFrames)) targetFrames totalFrames 0 0

theorem sampleGo_skip (interval target : Nat) :
    ∀ (s rem fc ec : Nat), s ≤ rem → (∀ t, t < s → (fc + t) % interval ≠ 0) →
      sampleGo interval target rem fc ec = sampleGo interval target (rem - s) (fc + s) ec := by
  intro s
  induction s with
  | zero => intro rem fc ec _ _; simp
  | succ n ih =>
    intro rem fc ec hle hmod
    obtain ⟨rem', rfl⟩ : ∃ r, rem = r + 1 := ⟨rem - 1, by omega⟩
    have h0 : fc % interval ≠ 0 := by
      have := hmod 0 (Nat.succ_pos n); simpa using this
    have hstep : sampleGo interval target (rem' + 1) fc ec =
        sampleGo interval target rem' (fc + 1) ec := by
      simp [sampleGo, h0]
    rw [hstep, ih rem' (fc + 1) ec (by omega) (fun t ht => by
      have := hmod (t + 1) (by omega)
      simpa [Nat.add_assoc, Nat.add_comm 1 t] using this)]
    congr 1 <;> omega

theorem sampleGo_keeps (interval target : Nat) (hint : 1 ≤ interval) :
    ∀ (n rem fc ec : Nat), ec + n = target → 1 ≤ n → (n - 1) * interval < rem →
      fc % interval = 0 →
      sampleGo interval target rem fc ec = (List.range n).map (fun i => fc + i * interval) := by
  intro n
  induction n with
  | zero => intro rem fc ec _ h1 _ _; omega
  | succ m ih =>
    intro rem fc ec hsum _ hrem hfc
    obtain ⟨rem', rfl⟩ : ∃ r, rem = r + 1 := ⟨rem - 1, by omega⟩
    have hrem' : m * interval < rem' + 1 := by simpa using hrem
    rcases Nat.eq_zero_or_pos m with hm | hm
    · subst hm
      have hstop : target ≤ ec + 1 := by omega
      simp [sampleGo, hfc, hstop, List.range_succ]
    · have hnostop : ¬ target ≤ ec + 1 := by omega
      have hstep : sampleGo interval target (rem' + 1) fc ec =
          fc :: sampleGo interval target rem' (fc + 1) (ec + 1) := by
        simp [sampleGo, hfc, hnostop]
      rw [hstep]
      have hmi : interval ≤ m * interval := Nat.le_mul_of_pos_left interval hm
      have hskip : sampleGo interval target rem' (fc + 1) (ec + 1) =
          sampleGo interval target (rem' - (interval - 1)) (fc + 1 + (interval - 1)) (ec + 1) := by
        apply sampleGo_skip
        · omega
        · intro t ht
          obtain ⟨q, hq⟩ := Nat.dvd_of_mod_eq_zero hfc
          subst hq
          have h1 : (interval * q + 1 + t) % interval = (1 + t) % interval := by
            rw [Nat.add_assoc, Nat.mul_add_mod]
          have h1t : (1 + t) % interval = 1 + t := Nat.mod_eq_of_lt (by omega)
          rw [h1, h1t]
          omega
      rw [hskip]
      have hfc' : (fc + 1 + (interval - 1)) = fc + interval := by omega
      rw [hfc']
      have hmul : (m - 1) * interval + interval = m * interval := by
        have h1 : m - 1 + 1 = m := by omega
        calc (m - 1) * interval + interval = (m - 1 + 1) * interval := by ring
          _ = m * interval := by rw [h1]
      have hrec := ih (rem' - (interval - 1)) (fc + interval) (ec + 1)
        (by omega) hm (by omega)
        (by simp [Nat.add_mod_right, hfc])
      rw [hrec]
      rw [List.range_succ_eq_map, List.map_cons, List.map_map]
      simp only [Nat.zero_mul, Nat.add_zero]
      congr 1
      apply List.map_congr_left
      intro i _
      simp only [Function.comp_apply, Nat.succ_eq_add_one, Nat.add_mul, Nat.one_mul]
      omega

/-- C1: for every video source with native frame count `F` and every (positive)
target frame count `T` with `F ≥ T`, `extract_frames_from_video` keeps exactly
`min(T, F)` frames, namely every `interval`-th frame at uniform stride
`interval = max(1, F / T)`, scanning sequentially from frame 0. -/
theorem c1_frame_sampler (F T : Nat) (hT : 1 ≤ T) (hFT : T ≤ F) :
    ∃ frames, extract_frames_from_video F T = some frames ∧
      frames.length = min T F ∧
      frames = (List.range (min T F)).map (fun i => i * max 1 (F / T)) := by
  have hT0 : ¬ T = 0 := by omega
  have hdiv : 1 ≤ F / T := (Nat.one_le_div_iff (by omega)).2 hFT
  have hmax : max 1 (F / T) = F / T := by omega
  have hmin : min T F = T := by omega
  have hmul : (T - 1) * (F / T) + F / T = T * (F / T) := by
    have h1 : T - 1 + 1 = T := by omega
    calc (T - 1) * (F / T) + F / T = (T - 1 + 1) * (F / T) := by ring
      _ = T * (F / T) := by rw [h1]
  have hle : T * (F / T) ≤ F := by
    rw [Nat.mul_comm]; exact Nat.div_mul_le_self F T
  have hrun := sampleGo_keeps (max 1 (F / T)) T (le_max_left _ _) T F 0 0
    (by omega) hT (by rw [hmax]; omega) (by simp)
  refine ⟨sampledFrames F T, by simp [extract_frames_from_video, hT0, sampledFrames], ?_, ?_⟩
  · rw [sampledFrames, hrun]; simp [hmin]
  · rw [sampledFrames, hrun, hmin]
    simp

/-- Witness for C1 at the spec's concrete scenario: a 300-frame source with
target 50 yields 50 frames at stride 6. -/
theorem c1_frame_sampler_witness :
    (1 ≤ 50 ∧ 50 ≤ 300) ∧
      ∃ frames, extract_frames_from_video 300 50 = some frames ∧
        frames.length = min 50 300 ∧
        frames = (List.range (min 50 300)).map (fun i => i * max 1 (300 / 50)) :=
  ⟨⟨by decide, by decide⟩, c1_frame_sampler 300 50 (by decide) (by decide)⟩

/-! ## Job records and the pipeline executor of `main.py`

`process_3d_generation` (lines 102-258) mutates the in-memory record
`jobs_status[job_id]` field by field and suspends at each `await`.  The body
is embedded as a list of events: one `set*` event per Python assignment to
the record, one `spawn` event per external command launched, one `fsMove`
event for the artifact relocation, and an `await` marker at every point
where the coroutine suspends (so where status queries can observe the
record).  The opaque outcomes of the external world are collected in `Env`. -/

inductive Status
  | queued
  | processing
  | completed
  | failed
deriving DecidableEq

inductive ErrKind
  | insufficientFrames (n : Nat)
  | colmapFailed (diag : String)
  | trainingFailed (diag : String)
  | noCheckpoint
  | exportFailed (diag : String)
  | plyNotFound
deriving DecidableEq

structure JobRec where
  status : Status
  message : String
  progress : Nat
  download : Option String
  error : Option ErrKind
deriving DecidableEq

inductive Cmd
  | colmap
  | train
  | export
deriving DecidableEq

inductive Event
  | setStatus (s : Status)
  | setMessage (m : String)
  | setProgress (p : Nat)
  | setDownload (u : String)
  | setError (k : ErrKind)
  | spawn (c : Cmd)
  | fsMove (src dst : String)
  | suspend
deriving DecidableEq

/-- Opaque outcomes of the external world for one `process_3d_generation` run:
the video's native frame count, each subprocess's return code and captured
diagnostic, the number of 5-second polling iterations the training loop makes
before the process exits, whether a checkpoint file exists, and the `.ply`
files matching `outputs/{job_id}*.ply` after export (in glob order). -/
structure Env where
  jobId : String
  totalFrames : Nat
  colmapRet : Nat
  colmapDiag : String
  trainTicks : Nat
  trainRet : Nat
  trainDiag : String
  hasCheckpoint : Bool
  exportRet : Nat
  exportDiag : String
  plyFiles : List String

/-- Frames kept by the sampler call at line 120 (`target_frames=50`). -/
def numFrames (e : Env) : Nat := (sampledFrames e.totalFrames 50).length

/-- The record created by `generate_3d` (lines 303-311). -/
def initRec : JobRec :=
  { status := .queued, message := "En attente de traitement...", progress := 0,
    download := none, error := none }

/-- The `except` block of `process_3d_generation` (lines 253-258). -/
def failEvents (k : ErrKind) : List Event :=
  [.setStatus .failed, .setMessage "Échec de la génération", .setError k, .setProgress 0]

/-- The training progress-simulation loop (lines 172-182): each iteration
sleeps (suspension), writes `progress = min(progress + 5, 85)`, then polls the
process (suspension). `t` is the number of iterations before exit. -/
def rampEvents : Nat → Nat → List Event → List Event
  | 0, _, rest => rest
  | t + 1, p, rest =>
    .suspend :: .setProgress (min (p + 5) 85) :: .suspend ::
      rampEvents t (min (p + 5) 85) rest

/-- Artifact resolution and the success epilogue (lines 228-244): the first
glob candidate is moved to `outputs/{job_id}.ply` unless it is already there,
then the record is marked completed. -/
def successEvents (jid : String) (plyHead : String) : List Event :=
  (if plyHead = "outputs/" ++ jid ++ ".ply" then []
   else [.fsMove plyHead ("outputs/" ++ jid ++ ".ply")]) ++
  [.setStatus .completed, .setProgress 100,
   .setMessage "Modèle 3D généré avec succès",
   .setDownload ("/download/" ++ jid ++ ".ply")]

/-- The full event trace of `process_3d_generation` (lines 102-258). -/
def events (e : Env) : List Event :=
  .setStatus .processing :: .setMessage "Extraction des frames..." :: .setProgress 10 ::
  (if numFrames e < 10 then failEvents (.insufficientFrames (numFrames e)) else
    .setProgress 20 :: .setMessage "Traitement COLMAP (structure from motion)..." ::
    .spawn .colmap :: .suspend ::
    (if e.colmapRet ≠ 0 then failEvents (.colmapFailed e.colmapDiag) else
      .setProgress 40 :: .setMessage "Entraînement du modèle NeRF (Instant-NGP)..." ::
      .spawn .train :: .suspend ::
      rampEvents e.trainTicks 40
        (.suspend ::
          (if e.trainRet ≠ 0 then failEvents (.trainingFailed e.trainDiag) else
            .setProgress 90 :: .setMessage "Export du modèle 3D..." ::
            (if ¬ e.hasCheckpoint then failEvents .noCheckpoint else
              .spawn .export :: .suspend ::
              (if e.exportRet ≠ 0 then failEvents (.exportFailed e.exportDiag) else
                match e.plyFiles with
                | [] => failEvents .plyNotFound
                | f :: _ => successEvents e.jobId f))))))

def applyEvent (r : JobRec) : Event → JobRec
  | .setStatus s => { r with status := s }
  | .setMessage m => { r with message := m }
  | .setProgress p => { r with progress := p }
  | .setDownload u => { r with download := some u }
  | .setError k => { r with error := some k }
  | .spawn _ => r
  | .fsMove _ _ => r
  | .suspend => r

def applyEvents (r : JobRec) (es : List Event) : JobRec := es.foldl applyEvent r

/-- The job's record once `process_3d_generation` has finished. -/
def finalRec (e : Env) : JobRec := applyEvents initRec (events e)

def statusOf : Event → Option Status
  | .setStatus s => some s
  | _ => none

/-- Every status value written to the record, in order, starting with the
`queued` status the record is created with. -/
def statusWrites (e : Env) : List Status := .queued :: (events e).filterMap statusOf

def spawnOf : Event → Option Cmd
  | .spawn c => some c
  | _ => none

/-- External commands launched during the run, in order. -/
def spawns (e : Env) : List Cmd := (events e).filterMap spawnOf

/-- The progress values written while the record's status is `st`, tracking
status writes along the trace. -/
def progressWrites : Status → List Event → List Nat
  | _, [] => []
  | _, .setStatus s :: es => progressWrites s es
  | st, .setProgress p :: es =>
    if st = .processing then p :: progressWrites st es else progressWrites st es
  | st, _ :: es => progressWrites st es

/-- The progress values the ramp loop writes, given `t` iterations starting
from progress `p`. -/
def rampVals : Nat → Nat → List Nat
  | 0, _ => []
  | t + 1, p => min (p + 5) 85 :: rampVals t (min (p + 5) 85)

/-- Record states visible to other coroutines: the state at each suspension
point plus the state after the trace ends. -/
def obsGo (r : JobRec) : List Event → List JobRec
  | [] => [r]
  | ev :: es =>
    match ev with
    | .suspend => r :: obsGo r es
    | _ => obsGo (applyEvent r ev) es

/-- All observable snapshots of the record over a run: the freshly created
record, then the state at every suspension point, then the final state. -/
def obsStates (e : Env) : List JobRec := initRec :: obsGo initRec (events e)

@[simp] theorem obsGo_nil (r : JobRec) : obsGo r [] = [r] := rfl

@[simp] theorem obsGo_suspend (r : JobRec) (es : List Event) :
    obsGo r (.suspend :: es) = r :: obsGo r es := rfl

@[simp] theorem obsGo_setStatus (r : JobRec) (s : Status) (es : List Event) :
    obsGo r (.setStatus s :: es) = obsGo { r with status := s } es := rfl

@[simp] theorem obsGo_setMessage (r : JobRec) (m : String) (es : List Event) :
    obsGo r (.setMessage m :: es) = obsGo { r with message := m } es := rfl

@[simp] theorem obsGo_setProgress (r : JobRec) (p : Nat) (es : List Event) :
    obsGo r (.setProgress p :: es) = obsGo { r with progress := p } es := rfl

@[simp] theorem obsGo_setDownload (r : JobRec) (u : String) (es : List Event) :
    obsGo r (.setDownload u :: es) = obsGo { r with download := some u } es := rfl

@[simp] theorem obsGo_setError (r : JobRec) (k : ErrKind) (es : List Event) :
    obsGo r (.setError k :: es) = obsGo { r with error := some k } es := rfl

@[simp] theorem obsGo_spawn (r : JobRec) (c : Cmd) (es : List Event) :
    obsGo r (.spawn c :: es) = obsGo r es := rfl

@[simp] theorem obsGo_fsMove (r : JobRec) (src dst : String) (es : List Event) :
    obsGo r (.fsMove src dst :: es) = obsGo r es := rfl

/-- `filterMap` ignores the ramp loop when the projection drops progress
writes and suspensions. -/
theorem filterMap_rampEvents {α : Type} (f : Event → Option α)
    (hp : ∀ p, f (.setProgress p) = none) (hs : f .suspend = none) :
    ∀ (t p : Nat) (rest : List Event),
      (rampEvents t p rest).filterMap f = rest.filterMap f := by
  intro t
  induction t with
  | zero => intro p rest; rfl
  | succ n ih =>
    intro p rest
    simp [rampEvents, List.filterMap_cons, hp, hs, ih]

/-- C2: every run of `process_3d_generation` writes the status sequence
`queued, processing, completed` or `queued, processing, failed` to its
record: the record is created `Queued`, no run skips `Queued`, the move to
`Processing` happens exactly once, and exactly one terminal status is
written last — no write ever leaves a terminal state. -/
theorem c2_status_machine (e : Env) :
    statusWrites e = [.queued, .processing, .completed] ∨
      statusWrites e = [.queued, .processing, .failed] := by
  have hramp := filterMap_rampEvents statusOf (fun _ => rfl) rfl
  unfold statusWrites events
  by_cases h1 : numFrames e < 10
  · right
    simp [h1, failEvents, statusOf, List.filterMap_cons]
  by_cases h2 : e.colmapRet ≠ 0
  · right
    simp [h1, h2, failEvents, statusOf, List.filterMap_cons, hramp]
  by_cases h3 : e.trainRet ≠ 0
  · right
    simp [h1, h2, h3, failEvents, statusOf, List.filterMap_cons, hramp]
  by_cases h4 : e.hasCheckpoint
  case neg =>
    right
    simp [h1, h2, h3, h4, failEvents, statusOf, List.filterMap_cons, hramp]
  by_cases h5 : e.exportRet ≠ 0
  · right
    simp [h1, h2, h3, h4, h5, failEvents, statusOf, List.filterMap_cons, hramp]
  cases hpf : e.plyFiles with
  | nil =>
    right
    simp [h1, h2, h3, h4, h5, hpf, failEvents, statusOf, List.filterMap_cons, hramp]
  | cons f l =>
    left
    by_cases h6 : f = "outputs/" ++ e.jobId ++ ".ply" <;>
      simp [h1, h2, h3, h4, h5, h6, hpf, failEvents, successEvents, statusOf,
        List.filterMap_cons, hramp]

theorem progressWrites_rampEvents :
    ∀ (t p : Nat) (rest : List Event),
      progressWrites .processing (rampEvents t p rest) =
        rampVals t p ++ progressWrites .processing rest := by
  intro t
  induction t with
  | zero => intro p rest; rfl
  | succ n ih =>
    intro p rest
    simp [rampEvents, rampVals, progressWrites, ih]

theorem rampVals_facts :
    ∀ (t p : Nat), p ≤ 85 →
      (∀ q ∈ rampVals t p, q ≤ 85) ∧ List.Chain' (· ≤ ·) (p :: rampVals t p) := by
  intro t
  induction t with
  | zero =>
    intro p hp
    refine ⟨fun q hq => ?_, by simp [rampVals]⟩
    simp [rampVals] at hq
  | succ n ih =>
    intro p hp
    obtain ⟨hle, hchain⟩ := ih (min (p + 5) 85) (min_le_right _ _)
    refine ⟨fun q hq => ?_, ?_⟩
    · rcases List.mem_cons.1 hq with rfl | hq
      · exact min_le_right _ _
      · exact hle q hq
    · exact List.chain'_cons.2 ⟨le_min (by omega) hp, hchain⟩

theorem chain'_rampVals_append :
    ∀ (t p : Nat) (tail : List Nat), p ≤ 85 →
      (∀ h ∈ tail.head?, 85 ≤ h) → List.Chain' (· ≤ ·) tail →
      List.Chain' (· ≤ ·) (p :: (rampVals t p ++ tail)) := by
  intro t
  induction t with
  | zero =>
    intro p tail hp hhead htail
    simp only [rampVals, List.nil_append]
    exact List.chain'_cons'.2 ⟨fun y hy => le_trans hp (hhead y hy), htail⟩
  | succ n ih =>
    intro p tail hp hhead htail
    simp only [rampVals, List.cons_append]
    exact List.chain'_cons.2
      ⟨le_min (by omega) hp, ih (min (p + 5) 85) tail (min_le_right _ _) hhead htail⟩

/-- C3: the progress values written while the record's status is `Processing`
form a non-decreasing sequence; the heuristic ramp of the training stage
never writes a value above the stage's progress ceiling of 90 (it is capped
at 85); and on a fully successful run the sequence is exactly
`10, 20, 40`, the capped ramp, then the snap to the ceiling `90` — the final
`100` is written only after the status has already moved to `Completed`. -/
theorem c3_progress_monotone (e : Env) :
    List.Chain' (· ≤ ·) (progressWrites .queued (events e)) ∧
      (∀ q ∈ rampVals e.trainTicks 40, q ≤ 90) ∧
      (10 ≤ numFrames e → e.colmapRet = 0 → e.trainRet = 0 → e.hasCheckpoint = true →
        e.exportRet = 0 → e.plyFiles ≠ [] →
        progressWrites .queued (events e) =
          [10, 20, 40] ++ rampVals e.trainTicks 40 ++ [90]) := by
  have hchar : progressWrites .queued (events e) = [10] ∨
      progressWrites .queued (events e) = [10, 20] ∨
      ∃ tail, (tail = ([] : List Nat) ∨ tail = [90]) ∧
        progressWrites .queued (events e) =
          [10, 20, 40] ++ rampVals e.trainTicks 40 ++ tail := by
    unfold events
    by_cases h1 : numFrames e < 10
    · left; simp [h1, failEvents, progressWrites]
    by_cases h2 : e.colmapRet ≠ 0
    · right; left; simp [h1, h2, failEvents, progressWrites]
    by_cases h3 : e.trainRet ≠ 0
    · exact Or.inr (Or.inr ⟨[], Or.inl rfl, by
        simp [h1, h2, h3, failEvents, progressWrites, progressWrites_rampEvents]⟩)
    by_cases h4 : e.hasCheckpoint
    case neg =>
      exact Or.inr (Or.inr ⟨[90], Or.inr rfl, by
        simp [h1, h2, h3, h4, failEvents, progressWrites, progressWrites_rampEvents]⟩)
    by_cases h5 : e.exportRet ≠ 0
    · exact Or.inr (Or.inr ⟨[90], Or.inr rfl, by
        simp [h1, h2, h3, h4, h5, failEvents, progressWrites, progressWrites_rampEvents]⟩)
    cases hpf : e.plyFiles with
    | nil =>
      exact Or.inr (Or.inr ⟨[90], Or.inr rfl, by
        simp [h1, h2, h3, h4, h5, hpf, failEvents, progressWrites,
          progressWrites_rampEvents]⟩)
    | cons f l =>
      refine Or.inr (Or.inr ⟨[90], Or.inr rfl, ?_⟩)
      by_cases h6 : f = "outputs/" ++ e.jobId ++ ".ply" <;>
        simp [h1, h2, h3, h4, h5, h6, hpf, failEvents, successEvents,
          progressWrites, progressWrites_rampEvents]
  refine ⟨?_, fun q hq =>
    le_trans ((rampVals_facts e.trainTicks 40 (by omega)).1 q hq) (by omega), ?_⟩
  · rcases hchar with h | h | ⟨tail, htail, h⟩
    · rw [h]; simp
    · rw [h]; simp
    · rw [h]
      have hhead : ∀ y ∈ tail.head?, 85 ≤ y := by
        rcases htail with rfl | rfl <;> simp
      have hchain : List.Chain' (· ≤ ·) tail := by
        rcases htail with rfl | rfl <;> simp
      exact List.chain'_cons.2 ⟨by omega, List.chain'_cons.2 ⟨by omega,
        chain'_rampVals_append e.trainTicks 40 tail (by omega) hhead hchain⟩⟩
  · intro hf hc ht hk hx hp
    unfold events
    have h1 : ¬ numFrames e < 10 := by omega
    cases hpf : e.plyFiles with
    | nil => exact absurd hpf hp
    | cons f l =>
      by_cases h6 : f = "outputs/" ++ e.jobId ++ ".ply" <;>
        simp [h1, hc, ht, hk, hx, hpf, h6, failEvents, successEvents,
          progressWrites, progressWrites_rampEvents]

/-- A fully successful run: 300-frame video, all subprocesses exit 0, a
checkpoint exists, and the export produced a single candidate file. -/
def envOk : Env :=
  { jobId := "job-1", totalFrames := 300, colmapRet := 0, colmapDiag := "",
    trainTicks := 3, trainRet := 0, trainDiag := "", hasCheckpoint := true,
    exportRet := 0, exportDiag := "", plyFiles := ["outputs/job-1_pc.ply"] }

/-- Witness for C3: on the concrete successful run `envOk` the progress
writes during `Processing` are exactly `10, 20, 40`, the ramp, then `90`. -/
theorem c3_progress_monotone_witness :
    10 ≤ numFrames envOk ∧
      progressWrites .queued (events envOk) =
        [10, 20, 40] ++ rampVals envOk.trainTicks 40 ++ [90] :=
  ⟨by decide, (c3_progress_monotone envOk).2.2 (by decide) rfl rfl rfl rfl (by decide)⟩

/-- C4: whenever the sampler keeps fewer than 10 frames, the run raises
before any external command: no stage subprocess is ever spawned, and the
job's final record is `Failed` with the insufficient-frames error carrying
the obtained count (and no download locator). -/
theorem c4_insufficient_frames (e : Env) (h : numFrames e < 10) :
    spawns e = [] ∧ (finalRec e).status = .failed ∧
      (finalRec e).error = some (.insufficientFrames (numFrames e)) ∧
      (finalRec e).download = none := by
  unfold spawns finalRec applyEvents events
  simp [h, failEvents, spawnOf, applyEvent, initRec, List.filterMap_cons]

/-- The spec's second concrete scenario: a 1-second 8-fps source has 8
native frames, all of which are kept, below the minimum of 10. -/
def envShort : Env :=
  { jobId := "job-2", totalFrames := 8, colmapRet := 0, colmapDiag := "",
    trainTicks := 0, trainRet := 0, trainDiag := "", hasCheckpoint := true,
    exportRet := 0, exportDiag := "", plyFiles := [] }

/-- Witness for C4 on the 8-frame source: 8 frames are kept, no stage runs,
and the job fails with the count 8 in its error detail. -/
theorem c4_insufficient_frames_witness :
    numFrames envShort < 10 ∧ numFrames envShort = 8 ∧
      (spawns envShort = [] ∧ (finalRec envShort).status = .failed ∧
        (finalRec envShort).error = some (.insufficientFrames (numFrames envShort)) ∧
        (finalRec envShort).download = none) :=
  ⟨by decide, by decide, c4_insufficient_frames envShort (by decide)⟩

/-- A snapshot observed inside the training loop is the entry record with
some progress value, or an observation of the loop's continuation. -/
theorem mem_obsGo_rampEvents :
    ∀ (t p : Nat) (rest : List Event) (r x : JobRec),
      x ∈ obsGo r (rampEvents t p rest) →
      (∃ q, x = { r with progress := q }) ∨
        ∃ q, x ∈ obsGo { r with progress := q } rest := by
  intro t
  induction t with
  | zero =>
    intro p rest r x hx
    exact Or.inr ⟨r.progress, hx⟩
  | succ n ih =>
    intro p rest r x hx
    rw [rampEvents] at hx
    simp only [obsGo_suspend, obsGo_setProgress, List.mem_cons] at hx
    rcases hx with rfl | rfl | hx
    · exact Or.inl ⟨x.progress, rfl⟩
    · exact Or.inl ⟨min (p + 5) 85, rfl⟩
    · rcases ih (min (p + 5) 85) rest _ x hx with ⟨q, hq⟩ | ⟨q, hq⟩
      · exact Or.inl ⟨q, hq⟩
      · exact Or.inr ⟨q, hq⟩

/-- C5: at every observable point of a job's lifetime — the freshly created
record, every coroutine suspension point, and the final state — the download
locator is set iff the status is `Completed`, and the error detail is set
iff the status is `Failed`. -/
theorem c5_locator_error_iff (e : Env) (r : JobRec) (hr : r ∈ obsStates e) :
    (r.download ≠ none ↔ r.status = .completed) ∧
      (r.error ≠ none ↔ r.status = .failed) := by
  unfold obsStates events at hr
  by_cases h1 : numFrames e < 10
  · simp [h1, failEvents] at hr
    rcases hr with rfl | rfl <;> simp [initRec]
  by_cases h2 : e.colmapRet ≠ 0
  · simp [h1, h2, failEvents] at hr
    rcases hr with rfl | rfl | rfl <;> simp [initRec]
  by_cases h3 : e.trainRet ≠ 0
  · simp [h1, h2, h3, failEvents] at hr
    rcases hr with rfl | rfl | rfl | hr
    · simp [initRec]
    · simp [initRec]
    · simp [initRec]
    · rcases mem_obsGo_rampEvents e.trainTicks 40 _ _ r hr with ⟨q, rfl⟩ | ⟨q, hr⟩
      · simp [initRec]
      · simp [failEvents] at hr
        rcases hr with rfl | rfl <;> simp [initRec]
  by_cases h4 : e.hasCheckpoint
  case neg =>
    simp [h1, h2, h3, h4, failEvents] at hr
    rcases hr with rfl | rfl | rfl | hr
    · simp [initRec]
    · simp [initRec]
    · simp [initRec]
    · rcases mem_obsGo_rampEvents e.trainTicks 40 _ _ r hr with ⟨q, rfl⟩ | ⟨q, hr⟩
      · simp [initRec]
      · simp [failEvents] at hr
        rcases hr with rfl | rfl <;> simp [initRec]
  by_cases h5 : e.exportRet ≠ 0
  · simp [h1, h2, h3, h4, h5, failEvents] at hr
    rcases hr with rfl | rfl | rfl | hr
    · simp [initRec]
    · simp [initRec]
    · simp [initRec]
    · rcases mem_obsGo_rampEvents e.trainTicks 40 _ _ r hr with ⟨q, rfl⟩ | ⟨q, hr⟩
      · simp [initRec]
      · simp [failEvents] at hr
        rcases hr with rfl | rfl | rfl <;> simp [initRec]
  cases hpf : e.plyFiles with
  | nil =>
    simp [h1, h2, h3, h4, h5, hpf, failEvents] at hr
    rcases hr with rfl | rfl | rfl | hr
    · simp [initRec]
    · simp [initRec]
    · simp [initRec]
    · rcases mem_obsGo_rampEvents e.trainTicks 40 _ _ r hr with ⟨q, rfl⟩ | ⟨q, hr⟩
      · simp [initRec]
      · simp [failEvents] at hr
        rcases hr with rfl | rfl | rfl <;> simp [initRec]
  | cons f l =>
    by_cases h6 : f = "outputs/" ++ e.jobId ++ ".ply" <;>
      · simp [h1, h2, h3, h4, h5, h6, hpf, failEvents, successEvents] at hr
        rcases hr with rfl | rfl | rfl | hr
        · simp [initRec]
        · simp [initRec]
        · simp [initRec]
        · rcases mem_obsGo_rampEvents e.trainTicks 40 _ _ r hr with ⟨q, rfl⟩ | ⟨q, hr⟩
          · simp [initRec]
          · simp at hr
            rcases hr with rfl | rfl | rfl <;> simp [initRec]

/-- Witness for C5: the created record of a concrete run is observable and
satisfies both iff invariants. -/
theorem c5_locator_error_iff_witness :
    initRec ∈ obsStates envOk ∧
      ((initRec.download ≠ none ↔ initRec.status = .completed) ∧
        (initRec.error ≠ none ↔ initRec.status = .failed)) :=
  ⟨List.mem_cons_self initRec _,
    c5_locator_error_iff envOk initRec (List.mem_cons_self initRec _)⟩

@[simp] theorem applyEvents_nil (r : JobRec) : applyEvents r [] = r := rfl

@[simp] theorem applyEvents_cons (r : JobRec) (ev : Event) (es : List Event) :
    applyEvents r (ev :: es) = applyEvents (applyEvent r ev) es := rfl

/-- Final progress value of the training loop after `t` iterations from `p`. -/
def rampFinal : Nat → Nat → Nat
  | 0, p => p
  | t + 1, p => rampFinal t (min (p + 5) 85)

theorem applyEvents_rampEvents :
    ∀ (t p : Nat) (rest : List Event) (r : JobRec), r.progress = p →
      applyEvents r (rampEvents t p rest) =
        applyEvents { r with progress := rampFinal t p } rest := by
  intro t
  induction t with
  | zero =>
    intro p rest r hr
    subst hr
    rfl
  | succ n ih =>
    intro p rest r _
    rw [rampEvents, rampFinal]
    exact ih (min (p + 5) 85) rest { r with progress := min (p + 5) 85 } rfl

/-- The record entering the training loop — common to all runs that reach
the training stage. -/
def recTrain : JobRec :=
  { status := .processing, message := "Entraînement du modèle NeRF (Instant-NGP)...",
    progress := 40, download := none, error := none }

theorem applyEvents_recTrain_ramp (t : Nat) (rest : List Event) :
    applyEvents recTrain (rampEvents t 40 rest) =
      applyEvents { recTrain with progress := rampFinal t 40 } rest :=
  applyEvents_rampEvents t 40 rest recTrain rfl

theorem mem_rampEvents (x : Event) :
    ∀ (t p : Nat) (rest : List Event), x ∈ rest → x ∈ rampEvents t p rest := by
  intro t
  induction t with
  | zero => intro p rest hx; exact hx
  | succ n ih =>
    intro p rest hx
    rw [rampEvents]
    exact List.mem_cons_of_mem _ (List.mem_cons_of_mem _ (List.mem_cons_of_mem _
      (ih (min (p + 5) 85) rest hx)))

/-- A run in which every stage succeeds but the export leaves two candidate
`.ply` files matching `outputs/{job_id}*.ply`. -/
def envTwoPly : Env :=
  { jobId := "job-3", totalFrames := 300, colmapRet := 0, colmapDiag := "",
    trainTicks := 0, trainRet := 0, trainDiag := "", hasCheckpoint := true,
    exportRet := 0, exportDiag := "", plyFiles := ["outputs/job-3_a.ply", "outputs/job-3_b.ply"] }

/-- Counterexample for C8: with two candidate output files the job does not
fail with an ambiguity error — it completes, silently using the first
candidate. -/
theorem c8_ambiguity_counterexample :
    envTwoPly.plyFiles.length = 2 ∧
      (finalRec envTwoPly).status = .completed ∧
      (finalRec envTwoPly).error = none ∧
      (finalRec envTwoPly).download = some "/download/job-3.ply" := by
  decide

/-- The events of a run up to the start of the training loop, common to all
runs whose sampling and pose-estimation stages succeed. -/
def prefixEvents (rest : List Event) : List Event :=
  .setStatus .processing :: .setMessage "Extraction des frames..." :: .setProgress 10 ::
  .setProgress 20 :: .setMessage "Traitement COLMAP (structure from motion)..." ::
  .spawn .colmap :: .suspend ::
  .setProgress 40 :: .setMessage "Entraînement du modèle NeRF (Instant-NGP)..." ::
  .spawn .train :: .suspend :: rest

/-- The events of the export stage, common to all runs whose training stage
succeeds and finds a checkpoint. -/
def exportStage (x : List Event) : List Event :=
  .suspend :: .setProgress 90 :: .setMessage "Export du modèle 3D..." ::
  .spawn .export :: .suspend :: x

theorem applyEvents_prefixEvents (rest : List Event) :
    applyEvents initRec (prefixEvents rest) = applyEvents recTrain rest := rfl

theorem mem_prefixEvents (x : Event) (rest : List Event) (hx : x ∈ rest) :
    x ∈ prefixEvents rest := by
  simp [prefixEvents, List.mem_cons, hx]

theorem mem_exportStage (x : Event) (rest : List Event) (hx : x ∈ rest) :
    x ∈ exportStage rest := by
  simp [exportStage, List.mem_cons, hx]

/-- C8 (amended): after the final stage succeeds, zero glob candidates make
the job fail with the artifact-not-found error; when one or more candidates
exist the job completes — the first candidate (in glob order) is moved to
the canonical per-job path `outputs/{job_id}.ply` (unless already there) and
`/download/{job_id}.ply` becomes the download locator.  No ambiguity check
is performed on extra candidates. -/
theorem c8_artifact_resolution (e : Env) (h1 : 10 ≤ numFrames e)
    (h2 : e.colmapRet = 0) (h3 : e.trainRet = 0) (h4 : e.hasCheckpoint = true)
    (h5 : e.exportRet = 0) :
    (e.plyFiles = [] → (finalRec e).status = .failed ∧
      (finalRec e).error = some .plyNotFound ∧ (finalRec e).download = none) ∧
    ∀ f fs, e.plyFiles = f :: fs →
      (finalRec e).status = .completed ∧ (finalRec e).error = none ∧
      (finalRec e).download = some ("/download/" ++ e.jobId ++ ".ply") ∧
      (f ≠ "outputs/" ++ e.jobId ++ ".ply" →
        Event.fsMove f ("outputs/" ++ e.jobId ++ ".ply") ∈ events e) := by
  have h1' : ¬ numFrames e < 10 := by omega
  constructor
  · intro hpf
    have hev : events e =
        prefixEvents (rampEvents e.trainTicks 40
          (exportStage (failEvents .plyNotFound))) := by
      simp [events, prefixEvents, exportStage, h1', h2, h3, h4, h5, hpf]
    have key : finalRec e =
        applyEvents { recTrain with progress := rampFinal e.trainTicks 40 }
          (exportStage (failEvents .plyNotFound)) := by
      rw [finalRec, hev, applyEvents_prefixEvents, applyEvents_recTrain_ramp]
    rw [key]
    exact ⟨rfl, rfl, rfl⟩
  · intro f fs hpf
    by_cases h6 : f = "outputs/" ++ e.jobId ++ ".ply"
    · have hev : events e =
          prefixEvents (rampEvents e.trainTicks 40
            (exportStage
              (.setStatus .completed :: .setProgress 100 ::
               .setMessage "Modèle 3D généré avec succès" ::
               [.setDownload ("/download/" ++ e.jobId ++ ".ply")]))) := by
        simp [events, successEvents, prefixEvents, exportStage, h1', h2, h3, h4, h5, hpf, h6]
      have key : finalRec e =
          applyEvents { recTrain with progress := rampFinal e.trainTicks 40 }
            (exportStage
              (.setStatus .completed :: .setProgress 100 ::
               .setMessage "Modèle 3D généré avec succès" ::
               [.setDownload ("/download/" ++ e.jobId ++ ".ply")])) := by
        rw [finalRec, hev, applyEvents_prefixEvents, applyEvents_recTrain_ramp]
      rw [key]
      exact ⟨rfl, rfl, rfl, fun hne => absurd h6 hne⟩
    · have hev : events e =
          prefixEvents (rampEvents e.trainTicks 40
            (exportStage
              (.fsMove f ("outputs/" ++ e.jobId ++ ".ply") ::
               .setStatus .completed :: .setProgress 100 ::
               .setMessage "Modèle 3D généré avec succès" ::
               [.setDownload ("/download/" ++ e.jobId ++ ".ply")]))) := by
        simp [events, successEvents, prefixEvents, exportStage, h1', h2, h3, h4, h5, hpf, h6]
      have key : finalRec e =
          applyEvents { recTrain with progress := rampFinal e.trainTicks 40 }
            (exportStage
              (.fsMove f ("outputs/" ++ e.jobId ++ ".ply") ::
               .setStatus .completed :: .setProgress 100 ::
               .setMessage "Modèle 3D généré avec succès" ::
               [.setDownload ("/download/" ++ e.jobId ++ ".ply")])) := by
        rw [finalRec, hev, applyEvents_prefixEvents, applyEvents_recTrain_ramp]
      refine ⟨by rw [key]; rfl, by rw [key]; rfl, by rw [key]; rfl, fun _ => ?_⟩
      rw [hev]
      exact mem_prefixEvents _ _ (mem_rampEvents _ e.trainTicks 40 _
        (mem_exportStage _ _ (List.mem_cons_self _ _)))

/-- Witness for C8: a concrete successful run with one candidate file
`outputs/job-1_pc.ply`, which is moved to the canonical path. -/
theorem c8_artifact_resolution_witness :
    10 ≤ numFrames envOk ∧
      ((finalRec envOk).status = .completed ∧ (finalRec envOk).error = none ∧
        (finalRec envOk).download = some ("/download/" ++ envOk.jobId ++ ".ply") ∧
        ("outputs/job-1_pc.ply" ≠ "outputs/" ++ envOk.jobId ++ ".ply" →
          Event.fsMove "outputs/job-1_pc.ply" ("outputs/" ++ envOk.jobId ++ ".ply")
            ∈ events envOk)) :=
  ⟨by decide,
    (c8_artifact_resolution envOk (by decide) rfl rfl rfl rfl).2 "outputs/job-1_pc.ply" [] rfl⟩

/-! ## Submission and admission (`generate_3d` of `main.py` and
`main_colmap.py`, `Config.MAX_CONCURRENT_JOBS` of `config.py`)

`main.py` schedules every accepted upload with `background_tasks.add_task`;
no admission gate exists, and `Config.MAX_CONCURRENT_JOBS` is never read by
any of the three variants.  Once the event loop has run each scheduled task
to its first suspension point, every job with enough frames is
`processing`. -/

/-- `Config.MAX_CONCURRENT_JOBS` default from `src/config.py` line 29. -/
def MAX_CONCURRENT_JOBS : Nat := 2

/-- The status a job shows once its background task has run to its first
suspension point (or completed, when it never suspends). -/
def firstObsStatus (e : Env) : Status := ((obsGo initRec (events e)).headD initRec).status

/-- Statuses of a batch of simultaneously submitted jobs after the event
loop has run each background task to its first suspension point. -/
def admittedStatuses (envs : List Env) : List Status := envs.map firstObsStatus

theorem firstObsStatus_processing (e : Env) (h : 10 ≤ numFrames e) :
    firstObsStatus e = .processing := by
  have h1' : ¬ numFrames e < 10 := by omega
  simp [firstObsStatus, events, h1']

/-- C6 (amended): the code has no concurrency governor — every submitted job
whose video yields at least 10 frames is running (status `Processing`) as
soon as its background task has started, regardless of how many other jobs
are active; none is held back in `Queued`. -/
theorem c6_no_admission_bound :
    ∀ (envs : List Env), (∀ e ∈ envs, 10 ≤ numFrames e) →
      (admittedStatuses envs).count .processing = envs.length ∧
        (admittedStatuses envs).count .queued = 0 := by
  intro envs
  induction envs with
  | nil => intro _; simp [admittedStatuses]
  | cons e es ih =>
    intro h
    have he : firstObsStatus e = .processing :=
      firstObsStatus_processing e (h e (List.mem_cons_self _ _))
    obtain ⟨ih1, ih2⟩ := ih (fun x hx => h x (List.mem_cons_of_mem _ hx))
    unfold admittedStatuses at ih1 ih2 ⊢
    simp [List.count_cons, he, ih1, ih2]

/-- Counterexample for C6: submitting `MAX_CONCURRENT + 1 = 3` jobs
simultaneously leaves all three in `Processing` — not two `Processing` and
one `Queued` as the claim states. -/
theorem c6_concurrency_counterexample :
    MAX_CONCURRENT_JOBS = 2 ∧
      admittedStatuses [envOk, envOk, envOk] = [.processing, .processing, .processing] ∧
      ¬ ((admittedStatuses [envOk, envOk, envOk]).count .processing = MAX_CONCURRENT_JOBS ∧
         (admittedStatuses [envOk, envOk, envOk]).count .queued = 1) := by
  decide

/-- Witness for C6 (amended) on a concrete batch of three jobs. -/
theorem c6_no_admission_bound_witness :
    (∀ e ∈ [envOk, envOk, envOk], 10 ≤ numFrames e) ∧
      ((admittedStatuses [envOk, envOk, envOk]).count .processing = 3 ∧
        (admittedStatuses [envOk, envOk, envOk]).count .queued = 0) :=
  ⟨by decide, c6_no_admission_bound [envOk, envOk, envOk] (by decide)⟩

/-! ## Submission validation (`generate_3d`) -/

inductive SubmitResult
  | accepted (jobId : String)
  | httpError (code : Nat)
deriving DecidableEq

/-- Effect of one submission: the registry entry created (if any), the
stored upload file (if any), and the HTTP-level outcome. -/
structure SubmitEffect where
  record : Option JobRec
  storedUpload : Option String
  result : SubmitResult
deriving DecidableEq

/-- The `try` block of `generate_3d` in `main.py` (lines 284-321): rejects a
non-video content type with HTTP 400 before the upload is written and before
the record is created; otherwise stores the upload and creates the `queued`
record. -/
def generate_3d_try (isVideo : Bool) (jid : String) : SubmitEffect :=
  if ¬ isVideo then
    { record := none, storedUpload := none, result := .httpError 400 }
  else
    { record := some initRec, storedUpload := some ("uploads/" ++ jid ++ ".mp4"),
      result := .accepted jid }

/-- `generate_3d` of `main.py`: its `except Exception` handler (lines
323-325) catches every raised exception — including the 400 validation
`HTTPException` — and re-raises it as HTTP 500. -/
def generate_3d (isVideo : Bool) (jid : String) : SubmitEffect :=
  match generate_3d_try isVideo jid with
  | { record := r, storedUpload := u, result := .httpError _ } =>
    { record := r, storedUpload := u, result := .httpError 500 }
  | ok => ok

/-- The record created by `generate_3d` of `main_colmap.py` (lines 208-217). -/
def initRecColmap : JobRec :=
  { status := .queued, message := "En attente...", progress := 0,
    download := none, error := none }

/-- `generate_3d` of `main_colmap.py` (lines 191-227): performs no
content-type validation — every upload is stored and a queued record is
created, whatever the content is. -/
def generate_3d_colmap (_isVideo : Bool) (jid : String) : SubmitEffect :=
  { record := some initRecColmap, storedUpload := some ("uploads/" ++ jid ++ ".mp4"),
    result := .accepted jid }

/-- Counterexample for C7: a non-video submission to the COLMAP variant is
not rejected — it stores the upload, creates a queued record, and returns a
job identifier. -/
theorem c7_nonvideo_counterexample :
    (generate_3d_colmap false "job-7").record = some initRecColmap ∧
      (generate_3d_colmap false "job-7").storedUpload ≠ none ∧
      (generate_3d_colmap false "job-7").result = .accepted "job-7" := by
  decide

/-- C7 (amended): the Nerfstudio variant (`main.py`) rejects non-video
content synchronously before any record is created and before the upload is
stored — though its generic handler re-surfaces the 400 validation error as
HTTP 500 — and returns no job identifier; the COLMAP variant
(`main_colmap.py`) performs no validation at all and creates a queued record
with a job identifier for any content. -/
theorem c7_submission_validation (jid : String) :
    (generate_3d false jid).record = none ∧
      (generate_3d false jid).storedUpload = none ∧
      (generate_3d false jid).result = .httpError 500 ∧
      generate_3d_try false jid = ⟨none, none, .httpError 400⟩ ∧
      (generate_3d true jid).result = .accepted jid ∧
      (generate_3d_colmap false jid).record = some initRecColmap ∧
      (generate_3d_colmap false jid).result = .accepted jid := by
  refine ⟨rfl, rfl, rfl, rfl, ?_, rfl, rfl⟩
  simp [generate_3d, generate_3d_try]

/-! ## Deletion, status queries and downloads (`delete_job`,
`get_job_status`, `download_model`)

The server state visible to these handlers: the in-memory `jobs_status`
registry, the files present under `outputs/`, and the per-job working
directories left under `jobs/`. -/

structure Server where
  jobs : List (String × JobRec)
  outputs : List String
  jobDirs : List String
deriving DecidableEq

inductive ApiResult
  | success
  | notFound
deriving DecidableEq

/-- `delete_job` of `main.py` (lines 356-372): if the job exists, unlink
`outputs/{job_id}.ply` (if present) and drop the registry entry; the working
directory `jobs/{job_id}` is NOT touched.  Unknown ids give 404. -/
def delete_job (s : Server) (jid : String) : Server × ApiResult :=
  if (s.jobs.lookup jid).isSome then
    ({ jobs := s.jobs.filter (fun p => p.1 != jid),
       outputs := s.outputs.filter (fun f => f != jid ++ ".ply"),
       jobDirs := s.jobDirs }, .success)
  else (s, .notFound)

/-- `delete_job` of `main_colmap.py` (lines 260-275): same, but it also
removes the working directory `jobs/{job_id}`. -/
def delete_job_colmap (s : Server) (jid : String) : Server × ApiResult :=
  if (s.jobs.lookup jid).isSome then
    ({ jobs := s.jobs.filter (fun p => p.1 != jid),
       outputs := s.outputs.filter (fun f => f != jid ++ ".ply"),
       jobDirs := s.jobDirs.filter (fun d => d != jid) }, .success)
  else (s, .notFound)

/-- `get_job_status` (lines 328-336): `none` models the 404 response. -/
def get_job_status (s : Server) (jid : String) : Option JobRec := s.jobs.lookup jid

/-- `download_model` (lines 339-353): serves `outputs/{filename}` when the
file exists, `none` models the 404 response. -/
def download_model (s : Server) (filename : String) : Option String :=
  if filename ∈ s.outputs then some filename else none

theorem lookup_filter_ne (l : List (String × JobRec)) (jid : String) :
    (l.filter (fun p => p.1 != jid)).lookup jid = none := by
  induction l with
  | nil => rfl
  | cons p l ih =>
    rcases p with ⟨k, v⟩
    by_cases h : k = jid
    · have hb : ((k, v).1 != jid) = false := by simp [h]
      rw [List.filter_cons, hb]
      simpa using ih
    · have hb : ((k, v).1 != jid) = true := by simp [h]
      have hb2 : (jid == k) = false := by simp [Ne.symm h]
      rw [List.filter_cons, hb]
      simp only [if_true, List.lookup, hb2]
      exact ih

/-- A server holding one terminated job `job-9` whose canonical artifact and
residual working directory both exist. -/
def srv9 : Server :=
  { jobs := [("job-9", initRec)], outputs := ["job-9.ply"], jobDirs := ["job-9"] }

/-- Counterexample for C9: deleting an existing job in `main.py` reports
success but leaves the residual working directory `jobs/job-9` in place. -/
theorem c9_workdir_counterexample :
    (delete_job srv9 "job-9").2 = .success ∧
      (delete_job srv9 "job-9").1.jobDirs = ["job-9"] := by
  decide

/-- C9 (amended): for an existing job, `delete_job` removes the record and
the canonical artifact, and subsequent status and download queries return
`NotFound`; the working directory is removed only by the COLMAP variant —
the Nerfstudio variant leaves `jobDirs` untouched.  For an unknown
identifier both variants return `NotFound`. -/
theorem c9_delete_job (s : Server) (jid : String) :
    ((s.jobs.lookup jid).isSome →
      (delete_job s jid).2 = .success ∧
      get_job_status (delete_job s jid).1 jid = none ∧
      download_model (delete_job s jid).1 (jid ++ ".ply") = none ∧
      (delete_job s jid).1.jobDirs = s.jobDirs ∧
      (delete_job_colmap s jid).1.jobDirs = s.jobDirs.filter (fun d => d != jid)) ∧
    ((s.jobs.lookup jid).isNone →
      (delete_job s jid).2 = .notFound ∧ (delete_job_colmap s jid).2 = .notFound) := by
  constructor
  · intro h
    refine ⟨?_, ?_, ?_, ?_, ?_⟩
    · simp [delete_job, h]
    · simp [delete_job, h, get_job_status, lookup_filter_ne]
    · simp [delete_job, h, download_model, List.mem_filter]
    · simp [delete_job, h]
    · simp [delete_job_colmap, h]
  · intro h
    have h' : ¬ (s.jobs.lookup jid).isSome := by
      simp [Option.isNone_iff_eq_none.1 h]
    exact ⟨by simp [delete_job, h'], by simp [delete_job_colmap, h']⟩

/-- Witness for C9 on the concrete server `srv9`. -/
theorem c9_delete_job_witness :
    (srv9.jobs.lookup "job-9").isSome = true ∧
      ((delete_job srv9 "job-9").2 = .success ∧
        get_job_status (delete_job srv9 "job-9").1 "job-9" = none ∧
        download_model (delete_job srv9 "job-9").1 ("job-9" ++ ".ply") = none ∧
        (delete_job srv9 "job-9").1.jobDirs = srv9.jobDirs ∧
        (delete_job_colmap srv9 "job-9").1.jobDirs =
          srv9.jobDirs.filter (fun d => d != "job-9")) :=
  ⟨by decide, (c9_delete_job srv9 "job-9").1 (by decide)⟩

/-! ## Frame extraction of `main_gaussian_splatting.py` and `main_colmap.py`

`main_gaussian_splatting.py` (lines 41-66) computes
`frame_interval = int(video_fps / fps)` with no lower bound; when the
reported native frame rate is below `fps`, the interval is 0 and the first
`frame_count % frame_interval` raises `ZeroDivisionError` (modelled by
`none`).  `main_colmap.py` (lines 44-47) guards the same computation with
`max(1, ...)`.  The reported frame rate is a nonnegative real; `int()`
truncation on a nonnegative quotient is the floor. -/

/-- `frame_interval` of `main_gaussian_splatting.py` line 47. -/
def gsFrameInterval (videoFps fps : ℚ) : ℤ := Int.floor (videoFps / fps)

/-- The read/keep loop shared by both variants: reads `rem` more frames,
keeping those with `frame_count % k == 0`; in Python `fc % 0` raises, so a
zero interval aborts on the very first readable frame (`none`). -/
def gsRun (k : Nat) : Nat → Nat → Nat → Option Nat
  | 0, _, saved => some saved
  | rem + 1, fc, saved =>
    if k = 0 then none
    else gsRun k rem (fc + 1) (if fc % k = 0 then saved + 1 else saved)

/-- `extract_frames_from_video` of `main_gaussian_splatting.py`: number of
frames saved, or `none` when the unguarded interval is zero and at least one
frame is readable. -/
def gs_extract_frames (videoFps fps : ℚ) (totalFrames : Nat) : Option Nat :=
  gsRun (gsFrameInterval videoFps fps).toNat totalFrames 0 0

/-- `frame_interval` of `main_colmap.py` line 46: guarded with `max(1, ...)`. -/
def colmapFrameInterval (videoFps fps : ℚ) : Nat :=
  max 1 (Int.floor (videoFps / fps)).toNat

/-- C10: for any readable video source (at least one frame) whose reported
native frame rate is below the call-site target of 3 fps, the
gaussian-splatting variant's extraction computes `frame_interval = 0` and
raises an unclassified division-by-zero exception on the first frame, while
the COLMAP variant's guarded interval is at least 1. -/
theorem c10_div_by_zero (videoFps : ℚ) (totalFrames : Nat)
    (h0 : 0 ≤ videoFps) (h3 : videoFps < 3) (ht : 1 ≤ totalFrames) :
    gsFrameInterval videoFps 3 = 0 ∧
      gs_extract_frames videoFps 3 totalFrames = none ∧
      1 ≤ colmapFrameInterval videoFps 3 := by
  have hk : gsFrameInterval videoFps 3 = 0 := by
    rw [gsFrameInterval, Int.floor_eq_zero_iff]
    constructor
    · exact div_nonneg h0 (by norm_num)
    · rw [div_lt_one (by norm_num)]
      exact h3
  obtain ⟨t, rfl⟩ : ∃ t, totalFrames = t + 1 := ⟨totalFrames - 1, by omega⟩
  refine ⟨hk, ?_, le_max_left _ _⟩
  rw [gs_extract_frames, hk]
  rfl

/-- Witness for C10: a source reporting 2 fps with 8 readable frames. -/
theorem c10_div_by_zero_witness :
    ((0 : ℚ) ≤ 2 ∧ (2 : ℚ) < 3 ∧ 1 ≤ 8) ∧
      (gsFrameInterval 2 3 = 0 ∧ gs_extract_frames 2 3 8 = none ∧
        1 ≤ colmapFrameInterval 2 3) :=
  ⟨⟨by norm_num, by norm_num, by norm_num⟩,
    c10_div_by_zero 2 8 (by norm_num) (by norm_num) (by norm_num)⟩
